import Mathlib

/-!
Shallow embedding of `src/Week1/minesweeper/minesweeper.py` (the `Sentence`
and `MinesweeperAI` classes) and verification of the specification's claims
about them.

Modelling choices, kept faithful to the Python source:

* A Python `set` is modelled as an insertion-ordered, duplicate-free
  `List`.  `addElem` is `set.add`, `List.erase` is `set.remove`,
  `List.filter (· ∉ r)` is set difference, and set equality is mutual
  inclusion.
* The expression `set(cell)` in `return_neighbors` iterates over a 2-tuple
  and therefore yields a set of the two *scalar coordinates*, not of cells.
  Elements of the AI's sets are therefore modelled by the sum type `Elem`
  (a bare number or a cell), mirroring the heterogeneous Python sets.
* Sentence counts are Python ints and may go negative, hence `Int`.
* `MinesweeperAI.check_knowledge` recurses on itself; the recursion is
  modelled with an explicit fuel parameter (`check_knowledge fuel st`),
  fuel being the allowed recursion depth.  All loops are structural.
* `random.randrange` draws in `make_random_move` are modelled by an
  oracle `draws : Nat → Cell`; `randrange` guarantees in-bounds results,
  which becomes a hypothesis on the oracle.
-/

/-- A board coordinate, Python tuple `(row, col)`. -/
abbrev Cell := Nat × Nat

/-- An element of one of the AI's Python sets: either a bare integer
(the scalars produced by `set(cell)` in `return_neighbors`) or a cell. -/
inductive Elem where
  | num : Nat → Elem
  | cell : Cell → Elem
deriving DecidableEq, Repr

/-- Python `set.add`: append unless already present (insertion-ordered
duplicate-free list model of a set). -/
def addElem (e : Elem) (l : List Elem) : List Elem :=
  if e ∈ l then l else l ++ [e]

/-- Python `issubset`. -/
def subsetB (l r : List Elem) : Bool :=
  l.all (fun e => decide (e ∈ r))

/-- The `Sentence` class: a set of board cells and a count of how many of
them are mines. -/
structure Sentence where
  cells : List Elem
  count : Int
deriving DecidableEq, Repr

/-- `Sentence.__eq__`: equal cell *sets* and equal counts. -/
def sentEqB (s t : Sentence) : Bool :=
  subsetB s.cells t.cells && subsetB t.cells s.cells && decide (s.count = t.count)

/-- `Sentence.known_mines`: `self.cells` when `count == len(self.cells)`,
otherwise Python's implicit `None`. -/
def known_mines (s : Sentence) : Option (List Elem) :=
  if s.count = (s.cells.length : Int) then some s.cells else none

/-- `Sentence.known_safes`: `self.cells` when `count == 0`, otherwise
Python's implicit `None`. -/
def known_safes (s : Sentence) : Option (List Elem) :=
  if s.count = 0 then some s.cells else none

/-- `Sentence.mark_mine`: if the cell is present, remove it and decrement
the count. -/
def Sentence.mark_mine (e : Elem) (s : Sentence) : Sentence :=
  if e ∈ s.cells then ⟨s.cells.erase e, s.count - 1⟩ else s

/-- `Sentence.mark_safe`: if the cell is present, remove it; count
unchanged. -/
def Sentence.mark_safe (e : Elem) (s : Sentence) : Sentence :=
  if e ∈ s.cells then ⟨s.cells.erase e, s.count⟩ else s

/-- State of the `MinesweeperAI` object. -/
structure AIState where
  height : Nat
  width : Nat
  moves_made : List Elem
  mines : List Elem
  safes : List Elem
  knowledge : List Sentence
deriving DecidableEq, Repr

/-- `MinesweeperAI.__init__(height, width)`. -/
def newAI (h w : Nat) : AIState :=
  ⟨h, w, [], [], [], []⟩

/-- `MinesweeperAI.mark_mine`: add to the global mine set and propagate
`Sentence.mark_mine` to every sentence. -/
def AIState.mark_mine (st : AIState) (e : Elem) : AIState :=
  { st with mines := addElem e st.mines,
            knowledge := st.knowledge.map (Sentence.mark_mine e) }

/-- `MinesweeperAI.mark_safe`: add to the global safe set and propagate
`Sentence.mark_safe` to every sentence. -/
def AIState.mark_safe (st : AIState) (e : Elem) : AIState :=
  { st with safes := addElem e st.safes,
            knowledge := st.knowledge.map (Sentence.mark_safe e) }

/-- The seed `neighbors = set(cell)` of `return_neighbors`: iterating a
2-tuple puts the two scalar coordinates into the set. -/
def neighborsSeed (c : Cell) : List Elem :=
  addElem (Elem.num c.2) (addElem (Elem.num c.1) [])

/-- `MinesweeperAI.return_neighbors`: starts from `set(cell)` and adds
every in-bounds `(rows, cols)` with `abs(cell[0]-rows) <= 1`,
`abs(cell[1]-cols) <= 1`, `(rows, cols) != cell`. -/
def return_neighbors (st : AIState) (c : Cell) : List Elem :=
  (List.range st.height).foldl (fun acc r =>
    (List.range st.width).foldl (fun acc2 w =>
      if Nat.dist c.1 r ≤ 1 ∧ Nat.dist c.2 w ≤ 1 ∧ (r, w) ≠ c
      then addElem (Elem.cell (r, w)) acc2 else acc2) acc)
    (neighborsSeed c)

/-- The neighbor-filtering loop in `add_knowledge`: for each neighbor,
`if cl in self.mines: cont -= 1` and then
`if cl not in self.mines or self.safes: new_cells.add(cl)` (note that the
second condition's right disjunct is the Python *truthiness* of the whole
safe set, not a membership test). -/
def buildLoop (mines safes : List Elem) : List Elem → List Elem × Int → List Elem × Int
  | [], acc => acc
  | cl :: rest, (nc, k) =>
      let k2 := if cl ∈ mines then k - 1 else k
      let nc2 := if cl ∉ mines ∨ safes ≠ [] then addElem cl nc else nc
      buildLoop mines safes rest (nc2, k2)

/-- The new sentence built inside `add_knowledge` from the neighbors of
the observed cell (run on the state after the cell was recorded as a move
and marked safe). -/
def build_new_sentence (st : AIState) (c : Cell) (count : Int) : Sentence :=
  let r := buildLoop st.mines st.safes (return_neighbors st c) ([], count)
  ⟨r.1, r.2⟩

/-- Python `list.remove` wrapped in `try ... except ValueError: pass`:
remove the first element satisfying the predicate, no-op when absent. -/
def removeFirst (p : Sentence → Bool) : List Sentence → List Sentence
  | [] => []
  | x :: xs => if p x then xs else x :: removeFirst p xs

/-- The `for mn in mines: self.mark_mine(mn); self.check_knowledge()`
loop of `check_knowledge`, parametric in the recursive call `ck`. -/
def mineLoop (ck : AIState → AIState) : List Elem → AIState → AIState
  | [], st => st
  | mn :: rest, st => mineLoop ck rest (ck (st.mark_mine mn))

/-- The `for sf in safes: self.mark_safe(sf); self.check_knowledge()`
loop of `check_knowledge`, parametric in the recursive call `ck`. -/
def safeLoop (ck : AIState → AIState) : List Elem → AIState → AIState
  | [], st => st
  | sf :: rest, st => safeLoop ck rest (ck (st.mark_safe sf))

/-- The `if len(sentence.cells) == 0: try: self.knowledge.remove(sentence)`
part of `check_knowledge`'s loop body. -/
def ckRemove (s : Sentence) (st : AIState) : AIState :=
  if s.cells = []
  then { st with knowledge := removeFirst (fun t => sentEqB t s) st.knowledge }
  else st

/-- The `mines = sentence.known_mines(); if mines: ...` part of
`check_knowledge`'s loop body (Python truthiness: `None` and the empty
set are both falsy). -/
def ckMines (ck : AIState → AIState) (s : Sentence) (st : AIState) : AIState :=
  match known_mines s with
  | some ms => if ms = [] then st else mineLoop ck ms st
  | none => st

/-- The `safes = sentence.known_safes(); if safes: ...` part of
`check_knowledge`'s loop body. -/
def ckSafes (ck : AIState → AIState) (s : Sentence) (st : AIState) : AIState :=
  match known_safes s with
  | some ss => if ss = [] then st else safeLoop ck ss st
  | none => st

/-- One iteration of `check_knowledge`'s loop body for one sentence of
the deep-copied snapshot: remove it from the live list if its cell set is
empty, then act on `known_mines()` and `known_safes()` of the snapshot
sentence. -/
def ckStep (ck : AIState → AIState) (s : Sentence) (st : AIState) : AIState :=
  ckSafes ck s (ckMines ck s (ckRemove s st))

/-- The loop of `check_knowledge` over the deep-copied snapshot of the
knowledge list. -/
def ckBody (ck : AIState → AIState) : List Sentence → AIState → AIState
  | [], st => st
  | s :: rest, st => ckBody ck rest (ckStep ck s st)

/-- `MinesweeperAI.check_knowledge`, with explicit recursion-depth fuel:
deep-copy the knowledge list and run the loop; each recursive call spends
one unit of fuel, and at fuel 0 the call returns the state unchanged. -/
def check_knowledge : Nat → AIState → AIState
  | 0, st => st
  | Nat.succ f, st => ckBody (check_knowledge f) st.knowledge st

/-- The marking tail of one `(i, j)` iteration of `inference`: mark every
cell of the derived sentence's `known_mines()` / `known_safes()` (same
shape as the corresponding `check_knowledge` code, but with no recursive
`check_knowledge()` call between marks, hence `ck = id`; `mineLoop id` /
`safeLoop id` are exactly the plain `for`-loops of `inference`). -/
def inferMark (ns : Sentence) (st : AIState) : AIState :=
  ckSafes id ns (ckMines id ns st)

/-- The mutation `sentence2.count = sentence1.count` performed by the
chained assignment in `inference`: overwrite the count of the sentence at
position `j` with the count of the sentence at position `i`. -/
def assignCount (st : AIState) (i j : Nat) : AIState :=
  { st with knowledge := st.knowledge.set j ⟨(st.knowledge.getD j ⟨[], 0⟩).cells, (st.knowledge.getD i ⟨[], 0⟩).count⟩ }

/-- The body of `inference` for the ordered pair `(i, j)` of positions in
the knowledge list: if `sentence1.cells ⊆ sentence2.cells`, compute
`new_cells = sentence2.cells - sentence1.cells`, execute the chained
assignment `new_count = sentence2.count = sentence1.count` (which
*assigns* `sentence1.count` into `sentence2.count` and into `new_count`;
the source's subtraction was mistyped as `=`), then run `inferMark` on
the derived sentence `Sentence(new_cells, new_count)`.  The derived
sentence is never appended to the knowledge list. -/
def inferStep (st : AIState) (i j : Nat) : AIState :=
  if subsetB (st.knowledge.getD i ⟨[], 0⟩).cells (st.knowledge.getD j ⟨[], 0⟩).cells then
    inferMark
      ⟨(st.knowledge.getD j ⟨[], 0⟩).cells.filter
          (fun e => decide (e ∉ (st.knowledge.getD i ⟨[], 0⟩).cells)),
        (st.knowledge.getD i ⟨[], 0⟩).count⟩
      (assignCount st i j)
  else st

/-- `MinesweeperAI.inference`: the nested
`for sentence1 in self.knowledge: for sentence2 in self.knowledge:` loop.
The list's length never changes during the loop (nothing is appended or
removed), so iteration is by position over the original length. -/
def inference (st : AIState) : AIState :=
  let n := st.knowledge.length
  (List.range n).foldl (fun acc i =>
    (List.range n).foldl (fun acc2 j => inferStep acc2 i j) acc) st

/-- The inference pass run at the end of every `add_knowledge` call:
`self.check_knowledge()` followed by `self.inference()`. -/
def inferencePass (fuel : Nat) (st : AIState) : AIState :=
  inference (check_knowledge fuel st)

/-- `MinesweeperAI.add_knowledge(cell, count)` (the spec's `observe`):
record the move, mark the cell safe, build the neighbor sentence, append
it when non-empty, then run `check_knowledge` and `inference`. -/
def add_knowledge (fuel : Nat) (st : AIState) (c : Cell) (count : Int) : AIState :=
  let st1 := { st with moves_made := addElem (Elem.cell c) st.moves_made }
  let st2 := st1.mark_safe (Elem.cell c)
  let ns := build_new_sentence st2 c count
  let st3 := if ns.cells = [] then st2
             else { st2 with knowledge := st2.knowledge ++ [ns] }
  inferencePass fuel st3

/-- The `isinstance(cell, tuple) and len(cell) == 2` filter of
`make_safe_move`: only `Elem.cell` elements are 2-tuples. -/
def cellOf : Elem → Option Cell
  | Elem.cell c => some c
  | Elem.num _ => none

/-- `MinesweeperAI.make_safe_move`: iterate `self.safes - self.moves_made`
and return the first element that is a 2-tuple; `None` otherwise. -/
def make_safe_move (st : AIState) : Option Cell :=
  (st.safes.filter (fun e => decide (e ∉ st.moves_made))).findSome? cellOf

/-- The `while max_moves > 0` sampling loop of `make_random_move`:
`f` is the remaining number of attempts, `k` indexes the draw oracle. -/
def randomLoop (moves mines : List Elem) (draws : Nat → Cell) : Nat → Nat → Option Cell
  | 0, _ => none
  | Nat.succ f, k =>
      if Elem.cell (draws k) ∉ moves ∧ Elem.cell (draws k) ∉ mines
      then some (draws k)
      else randomLoop moves mines draws f (k + 1)

/-- `MinesweeperAI.make_random_move`: up to `width * height` draws from
the random oracle; each drawn cell is returned if it is in neither
`moves_made` nor `mines`, and `None` is returned when the attempts are
exhausted. -/
def make_random_move (st : AIState) (draws : Nat → Cell) : Option Cell :=
  randomLoop st.moves_made st.mines draws (st.width * st.height) 0

/-- A public knowledge-base operation, as invoked by the runner. -/
inductive Op where
  | observe (c : Cell) (count : Int) (fuel : Nat)
  | markSafeOp (c : Cell)
  | markMineOp (c : Cell)

/-- Apply one public operation to the AI state. -/
def applyOp (st : AIState) : Op → AIState
  | Op.observe c k f => add_knowledge f st c k
  | Op.markSafeOp c => st.mark_safe (Elem.cell c)
  | Op.markMineOp c => st.mark_mine (Elem.cell c)

/-- Apply a sequence of public operations. -/
def runOps (st : AIState) (ops : List Op) : AIState :=
  ops.foldl applyOp st

/-- The safe and mine sets of `t` contain those of `s` (used for the
monotonicity claim). -/
def Grows (s t : AIState) : Prop :=
  s.safes ⊆ t.safes ∧ s.mines ⊆ t.mines

/-! ## Helper lemmas -/

theorem Grows.rfl (st : AIState) : Grows st st :=
  ⟨List.Subset.refl _, List.Subset.refl _⟩

theorem Grows.trans {s t u : AIState} (h1 : Grows s t) (h2 : Grows t u) : Grows s u :=
  ⟨List.Subset.trans h1.1 h2.1, List.Subset.trans h1.2 h2.2⟩

theorem subset_addElem (e : Elem) (l : List Elem) : l ⊆ addElem e l := by
  unfold addElem
  split
  · exact List.Subset.refl _
  · exact List.subset_append_left _ _

theorem grows_mark_mine (st : AIState) (e : Elem) : Grows st (st.mark_mine e) :=
  ⟨List.Subset.refl _, subset_addElem e st.mines⟩

theorem grows_mark_safe (st : AIState) (e : Elem) : Grows st (st.mark_safe e) :=
  ⟨subset_addElem e st.safes, List.Subset.refl _⟩

theorem grows_foldl {α : Type} (f : AIState → α → AIState)
    (hf : ∀ st x, Grows st (f st x)) :
    ∀ (l : List α) (st : AIState), Grows st (l.foldl f st)
  | [], st => Grows.rfl st
  | x :: xs, st => Grows.trans (hf st x) (grows_foldl f hf xs (f st x))

theorem grows_mineLoop (ck : AIState → AIState) (hck : ∀ st, Grows st (ck st)) :
    ∀ (l : List Elem) (st : AIState), Grows st (mineLoop ck l st)
  | [], st => Grows.rfl st
  | mn :: rest, st =>
      Grows.trans (Grows.trans (grows_mark_mine st mn) (hck _))
        (grows_mineLoop ck hck rest _)

theorem grows_safeLoop (ck : AIState → AIState) (hck : ∀ st, Grows st (ck st)) :
    ∀ (l : List Elem) (st : AIState), Grows st (safeLoop ck l st)
  | [], st => Grows.rfl st
  | sf :: rest, st =>
      Grows.trans (Grows.trans (grows_mark_safe st sf) (hck _))
        (grows_safeLoop ck hck rest _)

theorem grows_ckRemove (s : Sentence) (st : AIState) : Grows st (ckRemove s st) := by
  unfold ckRemove
  split
  · exact ⟨List.Subset.refl _, List.Subset.refl _⟩
  · exact Grows.rfl st

theorem grows_ckMines (ck : AIState → AIState) (hck : ∀ st, Grows st (ck st))
    (s : Sentence) (st : AIState) : Grows st (ckMines ck s st) := by
  unfold ckMines
  cases hk : known_mines s with
  | none => exact Grows.rfl st
  | some ms =>
      show Grows st (if ms = [] then st else mineLoop ck ms st)
      split
      · exact Grows.rfl st
      · exact grows_mineLoop ck hck ms st

theorem grows_ckSafes (ck : AIState → AIState) (hck : ∀ st, Grows st (ck st))
    (s : Sentence) (st : AIState) : Grows st (ckSafes ck s st) := by
  unfold ckSafes
  cases hk : known_safes s with
  | none => exact Grows.rfl st
  | some ss =>
      show Grows st (if ss = [] then st else safeLoop ck ss st)
      split
      · exact Grows.rfl st
      · exact grows_safeLoop ck hck ss st

theorem grows_ckStep (ck : AIState → AIState) (hck : ∀ st, Grows st (ck st))
    (s : Sentence) (st : AIState) : Grows st (ckStep ck s st) :=
  Grows.trans (grows_ckRemove s st)
    (Grows.trans (grows_ckMines ck hck s _) (grows_ckSafes ck hck s _))

theorem grows_ckBody (ck : AIState → AIState) (hck : ∀ st, Grows st (ck st)) :
    ∀ (l : List Sentence) (st : AIState), Grows st (ckBody ck l st)
  | [], st => Grows.rfl st
  | s :: rest, st =>
      Grows.trans (grows_ckStep ck hck s st) (grows_ckBody ck hck rest _)

theorem grows_check_knowledge :
    ∀ (f : Nat) (st : AIState), Grows st (check_knowledge f st)
  | 0, st => Grows.rfl st
  | Nat.succ f, st =>
      grows_ckBody (check_knowledge f) (grows_check_knowledge f) st.knowledge st

theorem grows_id (st : AIState) : Grows st (id st) :=
  Grows.rfl st

theorem grows_inferMark (ns : Sentence) (st : AIState) : Grows st (inferMark ns st) :=
  Grows.trans (grows_ckMines id grows_id ns st) (grows_ckSafes id grows_id ns _)

theorem grows_assignCount (st : AIState) (i j : Nat) : Grows st (assignCount st i j) :=
  ⟨List.Subset.refl _, List.Subset.refl _⟩

theorem grows_inferStep (st : AIState) (i j : Nat) : Grows st (inferStep st i j) := by
  unfold inferStep
  split
  · exact Grows.trans (grows_assignCount st i j) (grows_inferMark _ _)
  · exact Grows.rfl st

theorem grows_inference (st : AIState) : Grows st (inference st) :=
  grows_foldl _ (fun acc i =>
      grows_foldl _ (fun acc2 j => grows_inferStep acc2 i j) _ acc) _ st

theorem grows_inferencePass (fuel : Nat) (st : AIState) :
    Grows st (inferencePass fuel st) :=
  Grows.trans (grows_check_knowledge fuel st) (grows_inference _)

theorem grows_add_knowledge (fuel : Nat) (st : AIState) (c : Cell) (k : Int) :
    Grows st (add_knowledge fuel st c k) := by
  unfold add_knowledge
  refine Grows.trans (Grows.trans
    (⟨List.Subset.refl _, List.Subset.refl _⟩ :
      Grows st { st with moves_made := addElem (Elem.cell c) st.moves_made })
    (grows_mark_safe _ (Elem.cell c))) ?_
  refine Grows.trans ?_ (grows_inferencePass fuel _)
  split
  · exact Grows.rfl _
  · exact ⟨List.Subset.refl _, List.Subset.refl _⟩

theorem grows_applyOp (st : AIState) (o : Op) : Grows st (applyOp st o) := by
  cases o with
  | observe c k f => exact grows_add_knowledge f st c k
  | markSafeOp c => exact grows_mark_safe st (Elem.cell c)
  | markMineOp c => exact grows_mark_mine st (Elem.cell c)

theorem grows_runOps (st : AIState) (ops : List Op) : Grows st (runOps st ops) :=
  grows_foldl applyOp grows_applyOp ops st

/-! ## Theorems about the claims -/

/-- C3: the claim says `return_neighbors` of an in-bounds cell returns
exactly the in-bounds cells at Chebyshev distance 1 (excluding the cell
itself).  On the 3x3 board at cell `(0, 1)` the code instead seeds the
result with `set(cell)`, i.e. the two scalar coordinates `0` and `1`, so
the returned set holds two non-cell elements alongside the five genuine
neighbors.  The claim is therefore false of the code. -/
theorem c3_neighbors_returns_scalar_junk :
    return_neighbors (newAI 3 3) (0, 1) =
      [Elem.num 0, Elem.num 1, Elem.cell (0, 0), Elem.cell (0, 2),
       Elem.cell (1, 0), Elem.cell (1, 1), Elem.cell (1, 2)] := by
  decide

/-- C1: the claim says subset inference derives
`(B.cells - A.cells) = (B.count - A.count)`, so from `{A,B,C}=1` and
`{A,B}=1` it derives `{C}=0` and marks `C` safe.  The code's chained
assignment `new_count = sentence2.count = sentence1.count` uses
`sentence1.count` as the derived count instead of the difference: from
sentences `{(0,0),(0,1),(0,2)}=1` and `{(0,0),(0,1)}=1` it derives
`{(0,2)}=1` and marks `(0,2)` a MINE, leaving `safes` empty. -/
theorem c1_subset_rule_marks_mine_not_safe :
    (inference ⟨3, 3, [], [], [],
       [⟨[Elem.cell (0, 0), Elem.cell (0, 1), Elem.cell (0, 2)], 1⟩,
        ⟨[Elem.cell (0, 0), Elem.cell (0, 1)], 1⟩]⟩).mines = [Elem.cell (0, 2)]
  ∧ (inference ⟨3, 3, [], [], [],
       [⟨[Elem.cell (0, 0), Elem.cell (0, 1), Elem.cell (0, 2)], 1⟩,
        ⟨[Elem.cell (0, 0), Elem.cell (0, 1)], 1⟩]⟩).safes = [] := by
  decide

/-- C5: the claim says a derived subset-inference sentence with a
non-empty cell set that is not already present gets added to the
knowledge list.  From `{a,b}=1` and `{a,b,c,d}=2` the derived sentence
has cells `{c,d}` (non-empty, not present), yet after `inference` the
knowledge list still holds exactly the two original sentences (with the
second one's count clobbered to 1 by the chained assignment): `inference`
never appends anything. -/
theorem c5_derived_sentence_not_added :
    (inference ⟨3, 3, [], [], [],
       [⟨[Elem.cell (0, 0), Elem.cell (0, 1)], 1⟩,
        ⟨[Elem.cell (0, 0), Elem.cell (0, 1), Elem.cell (0, 2), Elem.cell (1, 0)], 2⟩]⟩).knowledge
    = [⟨[Elem.cell (0, 0), Elem.cell (0, 1)], 1⟩,
       ⟨[Elem.cell (0, 0), Elem.cell (0, 1), Elem.cell (0, 2), Elem.cell (1, 0)], 1⟩] := by
  decide

/-- C2: the claim says that after every public operation `safes` and
`mines` are disjoint and no cell of an active sentence is in either set.
On a 2x2 board, after `mark_mine((0,1))` followed by
`add_knowledge((0,0), 1)`, the cell `(0,1)` ends up in BOTH `safes` and
`mines`: the neighbor filter `if cl not in self.mines or self.safes:` is
always true once `safes` is non-empty, so the known mine `(0,1)` stays in
the new sentence (with the count already decremented for it), making the
sentence's count 0 and its cells "known safe". -/
theorem c2_safes_mines_not_disjoint :
    Elem.cell (0, 1) ∈
      (add_knowledge 10 ((newAI 2 2).mark_mine (Elem.cell (0, 1))) (0, 0) 1).safes
  ∧ Elem.cell (0, 1) ∈
      (add_knowledge 10 ((newAI 2 2).mark_mine (Elem.cell (0, 1))) (0, 0) 1).mines := by
  decide

/-- C4: the claim says the sentence built in `add_knowledge` excludes
neighbors already known safe and excludes known-mine neighbors (while
decrementing the count for them).  In the state reached on a 2x2 board by
`mark_mine((0,1))` and then the first two steps of
`add_knowledge((0,0), 1)` (record the move, mark `(0,0)` safe), the built
sentence still CONTAINS the known mine `(0,1)` — the filter
`if cl not in self.mines or self.safes:` is truthy because `safes` is
non-empty — even though its count was decremented to 0 for that mine. -/
theorem c4_known_mine_neighbor_kept_in_sentence :
    Elem.cell (0, 1) ∈
      (build_new_sentence
        (AIState.mark_safe
          { (newAI 2 2).mark_mine (Elem.cell (0, 1)) with
              moves_made := addElem (Elem.cell (0, 0))
                ((newAI 2 2).mark_mine (Elem.cell (0, 1))).moves_made }
          (Elem.cell (0, 0))) (0, 0) 1).cells
  ∧ Elem.cell (0, 1) ∈
      (AIState.mark_safe
        { (newAI 2 2).mark_mine (Elem.cell (0, 1)) with
            moves_made := addElem (Elem.cell (0, 0))
              ((newAI 2 2).mark_mine (Elem.cell (0, 1))).moves_made }
        (Elem.cell (0, 0))).mines
  ∧ (build_new_sentence
        (AIState.mark_safe
          { (newAI 2 2).mark_mine (Elem.cell (0, 1)) with
              moves_made := addElem (Elem.cell (0, 0))
                ((newAI 2 2).mark_mine (Elem.cell (0, 1))).moves_made }
          (Elem.cell (0, 0))) (0, 0) 1).count = 0 := by
  decide

/-- C7: the claim says running the inference pass (`check_knowledge` then
`inference`) twice in a row with no intervening observation leaves the
state unchanged.  Starting from the knowledge base holding
`{(0,0),(0,1)}=1` and `{(0,0),(0,1),(0,2)}=1`, the first pass marks
`(0,2)` a mine and — through the chained-assignment bug — leaves both
sentences as `{(0,0),(0,1)}=0` without acting on them; the second pass
then marks `(0,0)` and `(0,1)` safe, changing the state. -/
theorem c7_second_pass_changes_state :
    (inferencePass 10 ⟨3, 3, [], [], [],
       [⟨[Elem.cell (0, 0), Elem.cell (0, 1)], 1⟩,
        ⟨[Elem.cell (0, 0), Elem.cell (0, 1), Elem.cell (0, 2)], 1⟩]⟩).safes = []
  ∧ (inferencePass 10 (inferencePass 10 ⟨3, 3, [], [], [],
       [⟨[Elem.cell (0, 0), Elem.cell (0, 1)], 1⟩,
        ⟨[Elem.cell (0, 0), Elem.cell (0, 1), Elem.cell (0, 2)], 1⟩]⟩)).safes
      = [Elem.cell (0, 0), Elem.cell (0, 1)]
  ∧ inferencePass 10 (inferencePass 10 ⟨3, 3, [], [], [],
       [⟨[Elem.cell (0, 0), Elem.cell (0, 1)], 1⟩,
        ⟨[Elem.cell (0, 0), Elem.cell (0, 1), Elem.cell (0, 2)], 1⟩]⟩)
      ≠ inferencePass 10 ⟨3, 3, [], [], [],
       [⟨[Elem.cell (0, 0), Elem.cell (0, 1)], 1⟩,
        ⟨[Elem.cell (0, 0), Elem.cell (0, 1), Elem.cell (0, 2)], 1⟩]⟩ := by
  decide

/-- C9 counterexample: the claim says `make_safe_move` returns a cell
whenever `safes - moves_made` is non-empty and returns nothing exactly
when that set is empty.  After `add_knowledge((0,0), 0)` on a 1x1 board,
`safes - moves_made` is the non-empty set containing the scalar `0`
(junk from the `set(cell)` neighbor bug), yet `make_safe_move` returns
nothing because no element passes the `isinstance(cell, tuple)` test. -/
theorem c9_counterexample :
    (add_knowledge 10 (newAI 1 1) (0, 0) 0).safes.filter
      (fun e => decide (e ∉ (add_knowledge 10 (newAI 1 1) (0, 0) 0).moves_made)) ≠ []
  ∧ make_safe_move (add_knowledge 10 (newAI 1 1) (0, 0) 0) = none := by
  decide

theorem findSome_cellOf_mem (l : List Elem) (c : Cell)
    (h : l.findSome? cellOf = some c) : Elem.cell c ∈ l := by
  induction l with
  | nil => simp [List.findSome?] at h
  | cons e rest ih =>
      cases e with
      | num n =>
          simp only [List.findSome?, cellOf] at h
          exact List.mem_cons_of_mem _ (ih h)
      | cell c2 =>
          simp only [List.findSome?, cellOf, Option.some.injEq] at h
          rw [← h]
          exact List.mem_cons_self _ _

theorem findSome_cellOf_none (l : List Elem) :
    l.findSome? cellOf = none ↔ ∀ c : Cell, Elem.cell c ∉ l := by
  induction l with
  | nil => simp
  | cons e rest ih =>
      cases e with
      | num n =>
          simp only [List.findSome?, cellOf, ih, List.mem_cons]
          constructor
          · intro h c hc
            rcases hc with hc | hc
            · exact Elem.noConfusion hc
            · exact h c hc
          · intro h c hc
            exact h c (Or.inr hc)
      | cell c2 =>
          simp only [List.findSome?, cellOf, List.mem_cons]
          constructor
          · intro h
            exact Option.noConfusion h
          · intro h
            exact absurd (Or.inl rfl) (h c2)

/-- C9 (amended): `make_safe_move` returns only cells of
`safes - moves_made`, and it returns nothing exactly when that difference
contains no two-component cell element; because the difference can be
non-empty while holding only scalar junk (see `c9_counterexample`), an
empty difference is not equivalent to a `none` result. -/
theorem c9_safe_move_amended (st : AIState) :
    (∀ c : Cell, make_safe_move st = some c →
        Elem.cell c ∈ st.safes ∧ Elem.cell c ∉ st.moves_made)
  ∧ (make_safe_move st = none ↔
      ∀ c : Cell, Elem.cell c ∈ st.safes → Elem.cell c ∈ st.moves_made) := by
  constructor
  · intro c h
    unfold make_safe_move at h
    have hm := findSome_cellOf_mem _ c h
    have h2 := List.mem_filter.mp hm
    exact ⟨h2.1, of_decide_eq_true h2.2⟩
  · unfold make_safe_move
    rw [findSome_cellOf_none]
    constructor
    · intro h c hc
      by_contra hnc
      exact h c (List.mem_filter.mpr ⟨hc, decide_eq_true hnc⟩)
    · intro h c hc
      have h2 := List.mem_filter.mp hc
      exact of_decide_eq_true h2.2 (h c h2.1)

/-- Witness for `c9_safe_move_amended` at a concrete state. -/
theorem c9_amended_witness :
    Elem.cell (0, 1) ∈ (⟨2, 2, [], [], [Elem.cell (0, 1)], []⟩ : AIState).safes
  ∧ Elem.cell (0, 1) ∉ (⟨2, 2, [], [], [Elem.cell (0, 1)], []⟩ : AIState).moves_made :=
  (c9_safe_move_amended ⟨2, 2, [], [], [Elem.cell (0, 1)], []⟩).1 (0, 1) (by decide)

/-- C8: across any sequence of `add_knowledge` / `mark_safe` /
`mark_mine` calls, the global `safes` and `mines` sets only grow: any
element present before the sequence is still present afterwards.  Both
sets are only ever written through `set.add`. -/
theorem c8_safes_mines_monotone (st : AIState) (ops : List Op) (e : Elem) :
    (e ∈ st.safes → e ∈ (runOps st ops).safes)
  ∧ (e ∈ st.mines → e ∈ (runOps st ops).mines) :=
  ⟨fun h => (grows_runOps st ops).1 h, fun h => (grows_runOps st ops).2 h⟩

/-- Witness for `c8_safes_mines_monotone` at a concrete state and
operation sequence. -/
theorem c8_witness :
    Elem.cell (0, 0) ∈ (runOps ((newAI 2 2).mark_safe (Elem.cell (0, 0)))
      [Op.markMineOp (0, 1), Op.observe (1, 1) 1 5]).safes :=
  (c8_safes_mines_monotone ((newAI 2 2).mark_safe (Elem.cell (0, 0)))
    [Op.markMineOp (0, 1), Op.observe (1, 1) 1 5] (Elem.cell (0, 0))).1 (by decide)

theorem randomLoop_some_ok (moves mines : List Elem) (draws : Nat → Cell) :
    ∀ (f k : Nat) (m : Cell), randomLoop moves mines draws f k = some m →
      Elem.cell m ∉ moves ∧ Elem.cell m ∉ mines ∧ ∃ i, m = draws i := by
  intro f
  induction f with
  | zero => intro k m h; exact Option.noConfusion h
  | succ f ih =>
      intro k m h
      unfold randomLoop at h
      split at h
      · next hcond =>
          cases h
          exact ⟨hcond.1, hcond.2, k, rfl⟩
      · next hcond => exact ih (k + 1) m h

theorem randomLoop_draws_agree (moves mines : List Elem) (draws draws2 : Nat → Cell) :
    ∀ (f k : Nat), (∀ i, k ≤ i → i < k + f → draws i = draws2 i) →
      randomLoop moves mines draws f k = randomLoop moves mines draws2 f k := by
  intro f
  induction f with
  | zero => intro k h; rfl
  | succ f ih =>
      intro k h
      have hk : draws k = draws2 k := h k (Nat.le_refl k) (by omega)
      unfold randomLoop
      rw [hk]
      by_cases hp : Elem.cell (draws2 k) ∉ moves ∧ Elem.cell (draws2 k) ∉ mines
      · rw [if_pos hp, if_pos hp]
      · rw [if_neg hp, if_neg hp]
        exact ih (k + 1) (fun i h1 h2 => h i (by omega) (by omega))

theorem randomLoop_all_blocked (moves mines : List Elem) (draws : Nat → Cell)
    (hblock : ∀ i, Elem.cell (draws i) ∈ moves ∨ Elem.cell (draws i) ∈ mines) :
    ∀ (f k : Nat), randomLoop moves mines draws f k = none := by
  intro f
  induction f with
  | zero => intro k; rfl
  | succ f ih =>
      intro k
      unfold randomLoop
      rw [if_neg]
      · exact ih (k + 1)
      · intro hc
        rcases hblock k with h | h
        · exact hc.1 h
        · exact hc.2 h

/-- C10: assuming the random oracle only produces in-bounds cells (the
guarantee of `random.randrange(height)` / `randrange(width)`), every cell
returned by `make_random_move` is in bounds and in neither `moves_made`
nor `mines`; the loop consults at most `width * height` draws (the result
only depends on the first `width * height` oracle values); and when every
in-bounds cell is already in `moves_made` or `mines` the call returns
nothing instead of looping. -/
theorem c10_random_move_ok (st : AIState) (draws : Nat → Cell)
    (hdr : ∀ k, (draws k).1 < st.height ∧ (draws k).2 < st.width) :
    (∀ m : Cell, make_random_move st draws = some m →
        m.1 < st.height ∧ m.2 < st.width ∧
        Elem.cell m ∉ st.moves_made ∧ Elem.cell m ∉ st.mines)
  ∧ (∀ draws2 : Nat → Cell, (∀ i, i < st.width * st.height → draws i = draws2 i) →
        make_random_move st draws = make_random_move st draws2)
  ∧ ((∀ c : Cell, c.1 < st.height → c.2 < st.width →
        Elem.cell c ∈ st.moves_made ∨ Elem.cell c ∈ st.mines) →
        make_random_move st draws = none) := by
  refine ⟨?_, ?_, ?_⟩
  · intro m h
    unfold make_random_move at h
    obtain ⟨h1, h2, i, hi⟩ := randomLoop_some_ok st.moves_made st.mines draws _ 0 m h
    subst hi
    exact ⟨(hdr i).1, (hdr i).2, h1, h2⟩
  · intro draws2 hag
    unfold make_random_move
    exact randomLoop_draws_agree _ _ draws draws2 _ 0 (fun i h1 h2 => hag i (by omega))
  · intro hall
    unfold make_random_move
    exact randomLoop_all_blocked _ _ draws
      (fun i => hall (draws i) (hdr i).1 (hdr i).2) _ 0

/-- Witness for `c10_random_move_ok` at a concrete state and oracle: on a
fully played 1x1 board the sampler gives up and returns nothing. -/
theorem c10_witness :
    make_random_move ⟨1, 1, [Elem.cell (0, 0)], [], [], []⟩ (fun _ => (0, 0)) = none := by
  refine (c10_random_move_ok ⟨1, 1, [Elem.cell (0, 0)], [], [], []⟩ (fun _ => (0, 0))
    (fun k => ⟨Nat.zero_lt_one, Nat.zero_lt_one⟩)).2.2 ?_
  intro c h1 h2
  obtain ⟨x, y⟩ := c
  simp only at h1 h2
  have hx : x = 0 := by omega
  have hy : y = 0 := by omega
  subst hx
  subst hy
  left
  exact List.mem_cons_self _ _
